import Mathlib

/-!
Verification of the SlobDict natural-language specification against a shallow
embedding of the repository's Python sources.

Embedded modules:
* `src/slobdict/backend/slob_client.py`   (search coordinator, entry resolver)
* `src/slobdict/backend/http_server.py`   (loopback content bridge, `/find`)
* `src/slobdict/backend/dictionary_catalog_manager.py` (catalog parsing/round-trip)
* `src/slobdict/backend/dictionary_manager.py` (import copy/convert cleanup)
* `src/slobdict/utils/structs.py`         (`DictEntry` value types)

The binary dictionary reader (`slobdict/backend/slob.py`, the aard2 slob
container reader) is part of the repository but not among the provided
sources; its `find`/`get` primitives are modelled from the spec where noted.

Python machine integers are modelled as `Int`; Python byte strings and
strings are modelled as `String` (truthiness = non-emptiness).  Mutable
shared state (`SlobClient.current_request_id`) is modelled temporally: an
environment `Nat → Int` gives the value the field holds at the n-th
observation point of a `search` call, which lets claims about token
staleness "at the moment of return" be stated faithfully.
-/

namespace SlobDict

/-- Python `str.casefold()` as used for the sort key in
`SlobClient.search` (`slob_client.py:159`), modelled as the locale-naive
per-character lowercase fold. -/
def pyCasefold (s : String) : String :=
  ⟨s.data.map Char.toLower⟩

/-- Python list slicing `l[:limit]` with a possibly negative bound:
a nonnegative `limit` keeps the first `limit` elements, a negative one
drops the last `-limit` elements (clamped at zero). -/
def pySlice (limit : Int) (l : List α) : List α :=
  if 0 ≤ limit then l.take limit.toNat
  else l.take (l.length - (-limit).toNat)

/-- Python string comparison `a <= b`: lexicographic by code point
(an executable equivalent of the order on `String`; see
`pyStrLe_iff`). -/
def pyStrLe : List Char → List Char → Bool
  | [], _ => true
  | _ :: _, [] => false
  | a :: as, b :: bs =>
    if a < b then true
    else if a = b then pyStrLe as bs
    else false

/-- Stable insertion of `a` into `l`, placing `a` before the first element
whose key is not smaller: the insertion step of a stable sort keyed by
`k`. -/
def orderedInsertKey (k : α → String) (a : α) : List α → List α
  | [] => [a]
  | b :: l =>
    if pyStrLe (k a).data (k b).data then a :: b :: l
    else b :: orderedInsertKey k a l

/-- Python `list.sort(key=k)`: a stable sort by the key function `k`.
CPython uses a stable mergesort; any stable sort produces the identical
output list, so the embedding uses stable insertion sort. -/
def sortByKey (k : α → String) : List α → List α
  | [] => []
  | a :: l => orderedInsertKey k a (sortByKey k l)

/-- Value of `SlobClient.current_request_id` at each successive read
performed during one call (temporal trace of the shared mutable field). -/
abbrev Env := Nat → Int

/-- The cooperative-cancellation test
`if request_id and request_id != self.current_request_id`
(`slob_client.py:143` and `slob_client.py:169`): a falsy (absent or zero)
`request_id` short-circuits and never reads the shared field. -/
def cancelled (env : Env) (t : Nat) (rid : Option Int) : Bool :=
  match rid with
  | none => false
  | some r => r != 0 && r != env t

/-- One indexed entry of a slob container: blob id, key, content type and
content bytes. -/
structure SlobEntry where
  id : Int
  key : String
  contentType : String
  content : String
deriving DecidableEq

/-- Test that `query` is a leading substring of `key` (character-wise). -/
def strLeading : List Char → List Char → Bool
  | [], _ => true
  | _ :: _, [] => false
  | a :: as, b :: bs => a == b && strLeading as bs

/-- Modelled from the spec: `slob.find(query, slob, match_prefix=True)` —
the binary dictionary handle's prefix-search primitive.  `slob.py` is not
among the provided sources; per the spec (§6 and glossary) it yields the
entries whose key shares the query as leading substring, in the source's
natural index order. -/
def slobFind (query : String) (s : List SlobEntry) : List SlobEntry :=
  s.filter (fun e => strLeading query.data e.key.data)

/-- Modelled from the spec: `slob.get(blob_id)` — the handle's direct
by-id content fetch (`handle.getById`), returning content type and
content. -/
def slobGet (s : List SlobEntry) (blobId : Int) : Option (String × String) :=
  (s.find? (fun e => e.id == blobId)).map (fun e => (e.contentType, e.content))

/-- One loaded dictionary as `SlobClient` keeps it: the registry key it is
stored under, its display name, and the open handle's entries
(`SlobClient.DictInfoInner`). -/
structure DictSource where
  dictId : String
  dictName : String
  entries : List SlobEntry
deriving DecidableEq

/-- Search hit value type (`utils/structs.py`, `DictEntry`). -/
structure DictEntry where
  dict_id : String
  dict_name : String
  term_id : Int
  term : String
deriving DecidableEq

/-- Resolved entry content (`utils/structs.py`, `DictEntryContent`). -/
structure DictEntryContent where
  dict_id : String
  dict_name : String
  term_id : Int
  term : String
  content_type : String
  content : String
deriving DecidableEq

/-- Loop body of `SlobClient._find_in_slob` (`slob_client.py:162-179`):
iterate the prefix-scan results with index `i`, checking cancellation at
the top of every iteration (observation point `t`), collecting
`(blob.id, blob.key)` and breaking after appending when `i == limit`.
`none` models the `return []` taken on cancellation, which discards the
partial results of this source. -/
def findInSlobAux (env : Env) (rid : Option Int) (limit : Int) :
    List SlobEntry → Nat → Nat → Option (List (Int × String)) × Nat
  | [], _, t => (some [], t)
  | e :: rest, i, t =>
    if cancelled env t rid then (none, t + 1)
    else if (i : Int) = limit then (some [(e.id, e.key)], t + 1)
    else
      match findInSlobAux env rid limit rest (i + 1) (t + 1) with
      | (none, u) => (none, u)
      | (some l, u) => (some ((e.id, e.key) :: l), u)

/-- `SlobClient._find_in_slob`: prefix-scan one source; a cancellation
during the scan yields the empty match list for this source (the caller
is not aborted). -/
def findInSlob (env : Env) (rid : Option Int) (query : String) (limit : Int)
    (entries : List SlobEntry) (t : Nat) : List (Int × String) × Nat :=
  match findInSlobAux env rid limit (slobFind query entries) 0 t with
  | (none, u) => ([], u)
  | (some l, u) => (l, u)

/-- Per-source loop of `SlobClient.search` (`slob_client.py:141-157`):
check cancellation before each source (`return []` aborts the whole call,
modelled as `none`), then scan the source and append its hits as
`DictEntry` values. -/
def searchAux (env : Env) (rid : Option Int) (query : String) (limit : Int) :
    List DictSource → Nat → Option (List DictEntry) × Nat
  | [], t => (some [], t)
  | d :: rest, t =>
    if cancelled env t rid then (none, t + 1)
    else
      let p := findInSlob env rid query limit d.entries (t + 1)
      let hits := p.1.map (fun m => DictEntry.mk d.dictId d.dictName m.1 m.2)
      match searchAux env rid query limit rest p.2 with
      | (none, u) => (none, u)
      | (some res, u) => (some (hits ++ res), u)

/-- `SlobClient.search` (`slob_client.py:127-160`): fan the query out over
the loaded sources, then `results.sort(key=lambda d: d.term.casefold())`
and `return results[:limit]`.  The returned counter is the number of
observation points consumed; the value of `current_request_id` at the
moment of return is `env` applied to that counter. -/
def search (env : Env) (rid : Option Int) (sources : List DictSource)
    (query : String) (limit : Int) : List DictEntry × Nat :=
  match searchAux env rid query limit sources 0 with
  | (none, t) => ([], t)
  | (some res, t) =>
    (pySlice limit (sortByKey (fun d => pyCasefold d.term) res), t)

/-- Observation points at which `SlobClient.search` performs its
before-source cancellation check, for relating cancellation behaviour to
the trace `env`. -/
def sourceCheckTimes (env : Env) (rid : Option Int) (query : String)
    (limit : Int) : List DictSource → Nat → List Nat
  | [], _ => []
  | d :: rest, t =>
    t :: (if cancelled env t rid then []
          else sourceCheckTimes env rid query limit rest
            (findInSlob env rid query limit d.entries (t + 1)).2)

/-- Python truthiness of the optional integer `key_id`
(`if key_id:` in `SlobClient.get_entry`): absent or zero is falsy. -/
def truthyOptInt : Option Int → Bool
  | none => false
  | some r => r != 0

/-- Scan loop of `SlobClient.get_entry` without a `key_id`
(`slob_client.py:203-209`): each iteration overwrites the selected blob,
then breaks `if key == blob.key or len(key) < len(blob.key)`; if the loop
runs out, the last blob stays selected; an empty scan leaves the
variables unbound (`NameError`, caught by the enclosing handler). -/
def getEntryScan (key : String) : List SlobEntry → Option SlobEntry
  | [] => none
  | e :: rest =>
    if key = e.key ∨ key.length < e.key.length then some e
    else
      match rest with
      | [] => some e
      | _ :: _ => getEntryScan key rest

/-- One entry of `SlobClient.dictionaries`: display name plus the open
handle (`SlobClient.DictInfoInner`), keyed by the registry id. -/
structure DictInfoInner where
  name : String
  entries : List SlobEntry
deriving DecidableEq

/-- `SlobClient.get_entry` (`slob_client.py:181-223`): resolve
`(key, key_id, source)` to entry content.  A truthy `key_id` fetches
directly by id; otherwise a prefix scan selects a blob via
`getEntryScan`.  Any exception (unknown id, empty scan) as well as falsy
content yields `none`. -/
def getEntry (dicts : List (String × DictInfoInner)) (key : String)
    (keyId : Option Int) (source : String) : Option DictEntryContent :=
  match dicts.find? (fun p => p.1 == source) with
  | none => none
  | some (_, dinfo) =>
    if truthyOptInt keyId then
      match keyId with
      | none => none
      | some kid =>
        match slobGet dinfo.entries kid with
        | none => none
        | some (ct, content) =>
          if content ≠ "" then
            some (DictEntryContent.mk source dinfo.name kid key ct content)
          else none
    else
      match getEntryScan key (slobFind key dinfo.entries) with
      | none => none
      | some e =>
        if e.content ≠ "" then
          some (DictEntryContent.mk source dinfo.name e.id key e.contentType e.content)
        else none

/-- Selection rule as the spec words it for the no-`termId` resolve path
(§4.3): the first hit whose key exactly equals the term, else the first
hit whose key is no longer than the term.  Stated for comparison against
the code's `getEntryScan`. -/
def specResolveSelect (key : String) (scan : List SlobEntry) : Option SlobEntry :=
  match scan.find? (fun e => e.key == key) with
  | some e => some e
  | none => scan.find? (fun e => e.key.length ≤ key.length)

/-- Rendering of a selected blob into the `DictEntryContent` that
`get_entry` would build from it (falsy content yields `none`). -/
def renderSelected (source name key : String) (sel : Option SlobEntry) :
    Option DictEntryContent :=
  sel.bind (fun e =>
    if e.content ≠ "" then
      some (DictEntryContent.mk source name e.id key e.contentType e.content)
    else none)

/-! ## Catalog manager (`dictionary_catalog_manager.py`)

Python/JSON/plist values are modelled by `PyVal`; documents are modelled
at the post-deserialisation level (a parsed top-level object), where the
plist and JSON branches of `CatalogParser.parse` coincide.  `json.dump`
followed by `json.load` is the identity on such values. -/

/-- A deserialised Python value (JSON or plist scalar/collection). -/
inductive PyVal where
  | str : String → PyVal
  | int : Int → PyVal
  | bool : Bool → PyVal
  | pynone : PyVal
  | list : List PyVal → PyVal
  | dict : List (String × PyVal) → PyVal

/-- Python `d.get(k)` on a string-keyed dict: first binding wins,
`None` (here `Option.none`) when absent. -/
def pyGet (d : List (String × PyVal)) (k : String) : Option PyVal :=
  (d.find? (fun p => p.1 == k)).map (fun p => p.2)

/-- Catalog descriptor dataclass `Dictionary`
(`dictionary_catalog_manager.py:34-69`).  Fields keep the dynamically
typed values the Python object would hold. -/
structure CatDictionary where
  id : PyVal
  name : PyVal
  lang : PyVal
  type : PyVal
  version : PyVal
  size : PyVal
  hash : PyVal
  hash_algo : PyVal
  url : PyVal
  copyright : PyVal
  compression : PyVal

/-- `Dictionary.from_dict` (`dictionary_catalog_manager.py:54-69`):
field-wise `data.get` with the documented defaults. -/
def fromDict (d : List (String × PyVal)) : CatDictionary :=
  { id := (pyGet d "id").getD (.str "")
    name := (pyGet d "name").getD (.str "")
    lang := (pyGet d "lang").getD (.str "")
    type := (pyGet d "type").getD (.str "")
    version := (pyGet d "version").getD (.int 0)
    size := (pyGet d "size").getD (.int 0)
    hash := (pyGet d "hash").getD (.str "")
    hash_algo := (pyGet d "hash_algo").getD (.str "SHA-256")
    url := (pyGet d "url").getD (.str "")
    copyright := (pyGet d "copyright").getD .pynone
    compression := (pyGet d "compression").getD .pynone }

/-- `Dictionary.to_dict` = `dataclasses.asdict`: all eleven fields in
declaration order. -/
def toDict (x : CatDictionary) : List (String × PyVal) :=
  [("id", x.id), ("name", x.name), ("lang", x.lang), ("type", x.type),
   ("version", x.version), ("size", x.size), ("hash", x.hash),
   ("hash_algo", x.hash_algo), ("url", x.url), ("copyright", x.copyright),
   ("compression", x.compression)]

/-- The expected Apple dictionary-service asset marker. -/
def appleAssetType : String :=
  "com.apple.MobileAsset.DictionaryServices.dictionaryOSX"

/-- Python `int(x)` applied to a deserialised value (used on
`FormatVersion`): integers pass through, booleans coerce, anything else
raises here (string parsing is not needed by the embedded call sites). -/
def pyIntOfVal : PyVal → Except String Int
  | .int n => .ok n
  | .bool b => .ok (if b then 1 else 0)
  | _ => .error "int() argument is not convertible"

/-- Modelled from urllib: `urljoin(base, relative)`; the embedding
abstracts RFC 3986 resolution as string-level joining (no verified claim
depends on the join's internals).  An empty relative path yields the
base, mirroring the verbatim fallback. -/
def urljoinModel (base rel : String) : String :=
  if rel = "" then base else base ++ "/" ++ rel

/-- URL of one Apple asset entry (`dictionary_catalog_manager.py:123-129`):
joined from `__BaseURL` and `__RelativePath` when a base is present, else
`asset.get('url', '')` verbatim. -/
def appleAssetUrl (asset : List (String × PyVal)) : Except String PyVal :=
  match pyGet asset "__BaseURL" with
  | some (.str base) =>
    match (pyGet asset "__RelativePath").getD (.str "") with
    | .str rel => .ok (.str (urljoinModel base rel))
    | _ => .error "TypeError: relative path is not a string"
  | some _ => .error "TypeError: base URL is not a string"
  | none => .ok ((pyGet asset "url").getD (.str ""))

/-- One asset entry of an Apple catalog mapped to a descriptor
(`dictionary_catalog_manager.py:122-148`). -/
def appleAssetToDictionary (v : PyVal) : Except String CatDictionary :=
  match v with
  | .dict asset => do
    let url ← appleAssetUrl asset
    .ok { id := (pyGet asset "DictionaryIdentifier").getD (.str "")
          name := (pyGet asset "DictionaryPackageDisplayName").getD (.str "")
          lang := (pyGet asset "Language").getD (.str "")
          type := (pyGet asset "DictionaryType").getD (.str "Monolingual")
          version := (pyGet asset "_ContentVersion").getD (.int 1)
          size := (pyGet asset "_DownloadSize").getD (.int 0)
          hash := (pyGet asset "_Measurement").getD (.str "")
          hash_algo := (pyGet asset "_MeasurementAlgorithm").getD (.str "SHA-256")
          url := url
          copyright := (pyGet asset "DictionaryCopyright").getD .pynone
          compression := (pyGet asset "_CompressionAlgorithm").getD .pynone }
  | _ => .error "AttributeError: asset entry is not a dict"

/-- `CatalogParser._normalize_apple_catalog`
(`dictionary_catalog_manager.py:110-154`): hard failure unless
`AssetType` is exactly the expected marker, then the `Assets` array is
mapped to descriptors and `FormatVersion` coerced with `int()`. -/
def normalizeAppleCatalog (data : List (String × PyVal)) :
    Except String (Int × List CatDictionary) := do
  let ok : Bool := match pyGet data "AssetType" with
    | some (.str s) => s == appleAssetType
    | _ => false
  if ok then
    let assets ← match (pyGet data "Assets").getD (.list []) with
      | .list l => .ok l
      | _ => .error "TypeError: Assets is not iterable"
    let dicts ← assets.mapM appleAssetToDictionary
    let ver ← pyIntOfVal ((pyGet data "FormatVersion").getD (.int 1))
    .ok (ver, dicts)
  else
    .error "Invalid Apple catalog type"

/-- Outcome of `CatalogParser.parse`: either the document returned
unchanged ("assume it's already in our format") or the Apple
normalisation's `version` and descriptor objects. -/
inductive ParsedCatalog where
  | native : List (String × PyVal) → ParsedCatalog
  | apple : Int → List CatDictionary → ParsedCatalog

/-- `CatalogParser.parse` (`dictionary_catalog_manager.py:156-194`) on a
deserialised document: normalisation runs only when `AssetType` equals
the expected marker; otherwise the document is returned as native
format.  (The plist and JSON branches dispatch identically once the
bytes are deserialised.) -/
def parseCatalog (data : List (String × PyVal)) : Except String ParsedCatalog :=
  match pyGet data "AssetType" with
  | some (.str s) =>
    if s = appleAssetType then
      (normalizeAppleCatalog data).map (fun p => .apple p.1 p.2)
    else .ok (.native data)
  | _ => .ok (.native data)

/-- In-memory catalog object (`DictionaryCatalog`); the timestamp and
etag fields play no part in any claim and are omitted. -/
structure DictionaryCatalog where
  source : String
  catType : PyVal
  version : PyVal
  dictionaries : List CatDictionary

/-- One entry of a native catalog's `dictionaries` list
(`dictionary_catalog_manager.py:386-390`): a dict goes through
`Dictionary.from_dict`; anything else would fail the attribute access
inside `from_dict`. -/
def nativeEntryToDictionary : PyVal → Except String CatDictionary
  | .dict m => .ok (fromDict m)
  | _ => .error "AttributeError: catalog entry is not a dict"

/-- `DictionaryCatalogManager._create_catalog_from_data`
(`dictionary_catalog_manager.py:382-400`): native entries go through
`Dictionary.from_dict`, already-constructed descriptor objects (the
Apple branch) are kept as-is. -/
def createCatalogFromData (source : String) :
    ParsedCatalog → Except String DictionaryCatalog
  | .apple ver dicts =>
    .ok { source := source, catType := .str "apple", version := .int ver
          dictionaries := dicts }
  | .native d =>
    match (pyGet d "dictionaries").getD (.list []) with
    | .list items =>
      match items.mapM nativeEntryToDictionary with
      | .ok dicts =>
        .ok { source := source
              catType := (pyGet d "type").getD (.str "slobdict")
              version := (pyGet d "version").getD (.int 1)
              dictionaries := dicts }
      | .error e => .error e
    | _ => .error "TypeError: dictionaries is not iterable"

/-- `DictionaryCatalogManager.load_catalog` on a local file
(`dictionary_catalog_manager.py:330-380`), starting from the
deserialised document (no in-memory or on-disk cache entry for the
source, as for a fresh manager): parse then build the catalog object. -/
def loadCatalogFromData (source : String) (data : List (String × PyVal)) :
    Except String DictionaryCatalog :=
  parseCatalog data >>= createCatalogFromData source

/-- `DictionaryCatalog.to_dict` as written by
`DictionaryCatalogManager.export_catalog`
(`dictionary_catalog_manager.py:83-89` and `520-537`): the document the
exported JSON file deserialises back to. -/
def exportCatalogData (c : DictionaryCatalog) : List (String × PyVal) :=
  [("type", .str "slobdict"), ("version", c.version),
   ("dictionaries", .list (c.dictionaries.map (fun x => .dict (toDict x))))]

/-! ## Dictionary import (`dictionary_manager.py`) -/

/-- What the external converter run (`glos.convert`) did: succeeded
writing the destination, or raised leaving either a partial destination
file of some size or nothing. -/
inductive ConvertOutcome where
  | success : Int → ConvertOutcome
  | failure : Option Int → ConvertOutcome

/-- `DictionaryManager._convert_to_slob` (`dictionary_manager.py:102-166`)
projected onto the destination path: the state is `some size` when a file
exists at `dest_path`, starting from no file.  On a converter exception,
the partial output is unlinked if present and the error re-raised. -/
def convertToSlob (outcome : ConvertOutcome) : Except String Unit × Option Int :=
  match outcome with
  | .success sz => (.ok (), some sz)
  | .failure left =>
    let afterCleanup : Option Int :=
      match left with
      | some _ => none
      | none => none
    (.error "conversion failed", afterCleanup)

/-- `DictionaryManager._copy_slob_file` (`dictionary_manager.py:168-192`):
`shutil.copy2` materialises `copiedSize` bytes at the destination; a size
mismatch against the source unlinks the copy and raises, wrapped by the
enclosing `except` into an `IOError`. -/
def copySlobFile (srcSize copiedSize : Int) : Except String Unit × Option Int :=
  let dest : Option Int := some copiedSize
  if srcSize ≠ copiedSize then
    (.error "Failed to copy SLOB file: copy verification failed", none)
  else
    (.ok (), dest)

/-- The copy-or-convert step of `DictionaryManager.import_dictionary`
(`dictionary_manager.py:260-265`) for a destination filename that does
not exist yet; every `except` clause of `import_dictionary` re-raises, so
the step's error propagates to the caller unchanged. -/
def importConvertOrCopy (isSlobSource : Bool) (srcSize copiedSize : Int)
    (outcome : ConvertOutcome) : Except String Unit × Option Int :=
  if isSlobSource then copySlobFile srcSize copiedSize
  else convertToSlob outcome

/-! ## HTTP content bridge (`http_server.py`) -/

/-- Python `int(str)`: optional surrounding whitespace, an optional sign,
then digits with single underscores allowed between digits. -/
def pyIntDigits : List Char → Nat → Option Nat
  | [], acc => some acc
  | '_' :: c :: rest, acc =>
    if c.isDigit then pyIntDigits rest (acc * 10 + (c.toNat - 48)) else none
  | c :: rest, acc =>
    if c.isDigit then pyIntDigits rest (acc * 10 + (c.toNat - 48)) else none

/-- Parse the digit part of `int(str)`: must begin with a digit. -/
def pyIntBody : List Char → Option Nat
  | [] => none
  | c :: rest =>
    if c.isDigit then pyIntDigits rest (c.toNat - 48) else none

/-- Strip surrounding whitespace, as `int(str)` does before parsing. -/
def pyStrip (cs : List Char) : List Char :=
  ((cs.dropWhile Char.isWhitespace).reverse.dropWhile Char.isWhitespace).reverse

/-- Python `int(s)` returning `none` where CPython raises `ValueError`. -/
def pyIntParse (s : String) : Option Int :=
  match pyStrip s.data with
  | [] => none
  | c :: rest =>
    if c = '-' then (pyIntBody rest).map (fun n => -(n : Int))
    else if c = '+' then (pyIntBody rest).map (fun n => (n : Int))
    else (pyIntBody (c :: rest)).map (fun n => (n : Int))

/-- A raised Python exception reaching `do_GET`'s handler. -/
inductive PyError where
  | typeError : String → PyError
deriving DecidableEq

/-- Subscripting a `DictEntry` (`result['source']` etc. in
`_handle_find`, `http_server.py:141-143`): the class
(`utils/structs.py:6-30`) defines no `__getitem__`, so every subscript
raises `TypeError`. -/
def dictEntryGetItem (_e : DictEntry) (_k : String) : Except PyError PyVal :=
  .error (.typeError "DictEntry object is not subscriptable")

/-- Modelled from urllib: `quote(s, safe='')` percent-encoding; single
code-unit model (no verified claim depends on multi-byte encoding). -/
def urlquoteChar (c : Char) : String :=
  if c.isAlphanum ∨ c = '_' ∨ c = '.' ∨ c = '-' ∨ c = '~' then
    String.singleton c
  else
    let hx : Nat → Char := fun n =>
      if n < 10 then Char.ofNat (48 + n) else Char.ofNat (55 + n)
    "%" ++ String.singleton (hx (c.toNat / 16 % 16)) ++ String.singleton (hx (c.toNat % 16))

/-- Modelled from urllib: `quote(s, safe='')` over a string. -/
def urlquote (s : String) : String :=
  s.data.foldr (fun c acc => urlquoteChar c ++ acc) ""

/-- One element of the `/find` response's `items` array. -/
structure FindItem where
  url : String
  label : String
  dictLabel : String
deriving DecidableEq

/-- Response of the `/find` endpoint: an error status with its message,
or the 200 JSON body's `items` array. -/
inductive FindResponse where
  | error : Nat → String → FindResponse
  | ok : List FindItem → FindResponse
deriving DecidableEq

/-- Item construction of `_handle_find` (`http_server.py:138-146`): each
result is subscripted with `'source'`, `'id'` and `'title'`; the first
raised exception aborts the whole response. -/
def buildItems (results : List DictEntry) : Except PyError (List FindItem) :=
  results.mapM (fun r => do
    let src ← dictEntryGetItem r "source"
    let idv ← dictEntryGetItem r "id"
    let title ← dictEntryGetItem r "title"
    match src, idv, title with
    | .str s, .str i, .str t =>
      .ok (FindItem.mk ("/slob/" ++ s ++ "/" ++ urlquote i) t s)
    | _, _, _ => .error (.typeError "expected str"))

/-- The search-and-respond tail of `_handle_find`
(`http_server.py:133-158`): `slob_client.search(key, limit=limit)` is
called without a request id; an exception while building items reaches
`do_GET`, which answers 500. -/
def findRespond (env : Env) (sources : List DictSource) (key : String)
    (limit : Int) : FindResponse :=
  let results := (search env none sources key limit).1
  match buildItems results with
  | .ok items => .ok items
  | .error _ => .error 500 "internal error"

/-- `DictionaryHTTPHandler._handle_find` (`http_server.py:110-158`):
`query.get("key", [""])[0]` and `query.get("limit", ["100"])[0]`; a
missing or empty key is 400 before any limit handling; `int(limit_str)`
over 10000 is 413; a `ValueError` or a non-positive value falls back to
100. -/
def handleFind (env : Env) (sources : List DictSource)
    (keyParam limitParam : Option String) : FindResponse :=
  let key := keyParam.getD ""
  if key = "" then .error 400 "Missing key parameter"
  else
    let limitStr := limitParam.getD "100"
    match pyIntParse limitStr with
    | some l =>
      if l > 10000 then .error 413 "Limit too large"
      else findRespond env sources key (if l ≤ 0 then 100 else l)
    | none => findRespond env sources key 100

/-! ## Concrete instances used by counterexamples and witnesses -/

/-- Trace for the stale-at-return scenario: the current request id is 1
while the search's checks run (observation points 0 and 1) and becomes 2
afterwards, before the call returns. -/
def c1Env : Env := fun t => if t < 2 then 1 else 2

/-- A single loaded source holding one entry matching the query. -/
def c1Src : DictSource := ⟨"d1", "Dict One", [⟨1, "cat", "text/html", "c"⟩]⟩

/-- A source with two hits, for exercising a negative slice bound. -/
def c2Src : DictSource :=
  ⟨"d1", "Dict One", [⟨1, "ca", "text/html", "c"⟩, ⟨2, "cat", "text/html", "c"⟩]⟩

/-- Spec §8 scenario, source A: terms `cat` and `catalog`. -/
def c3SrcA : DictSource :=
  ⟨"A", "Dict A", [⟨1, "cat", "text/html", "c"⟩, ⟨2, "catalog", "text/html", "c"⟩]⟩

/-- Spec §8 scenario, source B: term `category`. -/
def c3SrcB : DictSource := ⟨"B", "Dict B", [⟨3, "category", "text/html", "c"⟩]⟩

/-- The merged (pre-sort) hit list of the §8 scenario in
source-enumeration order. -/
def c3Merged : List DictEntry :=
  [⟨"A", "Dict A", 1, "cat"⟩, ⟨"A", "Dict A", 2, "catalog"⟩,
   ⟨"B", "Dict B", 3, "category"⟩]

/-- Client whose only source holds the single headword `catalog`. -/
def c4Dicts : List (String × DictInfoInner) :=
  [("s1", ⟨"Dict One", [⟨1, "catalog", "text/html", "X"⟩]⟩)]

/-- A catalog document that carries an `AssetType` marker whose value is
not the Apple dictionary-service identifier. -/
def c5Doc : List (String × PyVal) := [("AssetType", .str "bogus")]

/-- The spec §8 single-descriptor native catalog document. -/
def c6Data : List (String × PyVal) :=
  [("type", .str "slobdict"), ("version", .int 1),
   ("dictionaries", .list [.dict
     [("id", .str "en-en"), ("name", .str "English"), ("lang", .str "en"),
      ("type", .str "Monolingual"), ("version", .int 1), ("size", .int 1000),
      ("hash", .str "abc"), ("hash_algo", .str "SHA-256"),
      ("url", .str "file:///d.dat")]])]

/-- The catalog object `c6Data` loads to. -/
def c6Catalog : DictionaryCatalog :=
  { source := "catalog.json", catType := .str "slobdict", version := .int 1
    dictionaries :=
      [{ id := .str "en-en", name := .str "English", lang := .str "en"
         type := .str "Monolingual", version := .int 1, size := .int 1000
         hash := .str "abc", hash_algo := .str "SHA-256"
         url := .str "file:///d.dat", copyright := .pynone
         compression := .pynone }] }

/-! ## Lemmas about the stable key-sort -/

theorem pyStrLe_not_lex : ∀ as bs : List Char,
    pyStrLe as bs = true ↔ ¬ List.Lex (· < ·) bs as := by
  intro as
  induction as with
  | nil =>
    intro bs
    refine iff_of_true rfl ?_
    intro h
    cases h
  | cons a as ih =>
    intro bs
    cases bs with
    | nil =>
      refine iff_of_false (by simp [pyStrLe]) ?_
      simp only [not_not]
      exact List.Lex.nil
    | cons b bs =>
      rw [pyStrLe]
      by_cases hlt : a < b
      · rw [if_pos hlt]
        refine iff_of_true rfl ?_
        intro h
        cases h with
        | rel h' => exact absurd hlt (asymm h')
        | cons h' => exact absurd hlt (lt_irrefl _)
      · rw [if_neg hlt]
        by_cases heq : a = b
        · subst heq
          rw [if_pos rfl, ih bs]
          constructor
          · intro h hl
            cases hl with
            | rel h' => exact absurd h' hlt
            | cons h' => exact h h'
          · intro h hl
            exact h (List.Lex.cons hl)
        · rw [if_neg heq]
          refine iff_of_false (by simp) ?_
          simp only [not_not]
          exact List.Lex.rel (lt_of_le_of_ne (not_lt.mp hlt) (Ne.symm heq))

theorem pyStrLe_iff (a b : String) : pyStrLe a.data b.data = true ↔ a ≤ b := by
  have hle : (a ≤ b) ↔ ¬ b < a := Iff.rfl
  rw [hle, String.lt_iff_toList_lt]
  exact pyStrLe_not_lex a.data b.data

theorem mem_orderedInsertKey (k : α → String) (a x : α) (l : List α) :
    x ∈ orderedInsertKey k a l ↔ x = a ∨ x ∈ l := by
  induction l with
  | nil => simp [orderedInsertKey]
  | cons b t ih =>
    by_cases h : pyStrLe (k a).data (k b).data = true
    · simp [orderedInsertKey, h]
    · simp [orderedInsertKey, h, ih]
      tauto

theorem pairwise_orderedInsertKey (k : α → String) (a : α) (l : List α)
    (h : l.Pairwise (fun x y => k x ≤ k y)) :
    (orderedInsertKey k a l).Pairwise (fun x y => k x ≤ k y) := by
  induction l with
  | nil => simp [orderedInsertKey]
  | cons b t ih =>
    rw [List.pairwise_cons] at h
    obtain ⟨hb, ht⟩ := h
    by_cases hab : k a ≤ k b
    · rw [orderedInsertKey, if_pos ((pyStrLe_iff _ _).mpr hab)]
      refine List.Pairwise.cons ?_ (List.Pairwise.cons hb ht)
      intro x hx
      rcases List.mem_cons.mp hx with rfl | hx
      · exact hab
      · exact le_trans hab (hb x hx)
    · rw [orderedInsertKey,
        if_neg (fun hc => hab ((pyStrLe_iff _ _).mp hc))]
      refine List.Pairwise.cons ?_ (ih ht)
      intro x hx
      rcases (mem_orderedInsertKey k a x t).mp hx with rfl | hx
      · exact (not_le.mp hab).le
      · exact hb x hx

theorem pairwise_sortByKey (k : α → String) (l : List α) :
    (sortByKey k l).Pairwise (fun x y => k x ≤ k y) := by
  induction l with
  | nil => simp [sortByKey]
  | cons a t ih => exact pairwise_orderedInsertKey k a _ ih

theorem filter_orderedInsertKey (k : α → String) (s : String) (a : α) (l : List α) :
    (orderedInsertKey k a l).filter (fun x => k x == s) =
      if k a == s then a :: l.filter (fun x => k x == s)
      else l.filter (fun x => k x == s) := by
  induction l with
  | nil => by_cases h : k a == s <;> simp [orderedInsertKey, List.filter, h]
  | cons b t ih =>
    by_cases hab : k a ≤ k b
    · rw [orderedInsertKey, if_pos ((pyStrLe_iff _ _).mpr hab)]
      by_cases has : k a == s <;> simp [List.filter_cons, has]
    · rw [orderedInsertKey,
        if_neg (fun hc => hab ((pyStrLe_iff _ _).mp hc)), List.filter_cons, ih]
      by_cases has : k a == s
      · have ha : k a = s := by exact_mod_cast eq_of_beq has
        have hbs : (k b == s) = false := by
          apply beq_eq_false_iff_ne.mpr
          intro hbs
          exact hab (le_of_eq (ha.trans hbs.symm))
        simp [has, hbs]
      · simp [has, List.filter_cons]

theorem filter_sortByKey (k : α → String) (s : String) (l : List α) :
    (sortByKey k l).filter (fun x => k x == s) = l.filter (fun x => k x == s) := by
  induction l with
  | nil => rfl
  | cons a t ih =>
    rw [sortByKey, filter_orderedInsertKey, ih, List.filter_cons]

theorem pySlice_eq_take (limit : Int) (l : List α) :
    ∃ m, pySlice limit l = l.take m := by
  unfold pySlice
  split <;> exact ⟨_, rfl⟩

theorem length_pySlice_le (limit : Int) (l : List α) (h : 0 ≤ limit) :
    ((pySlice limit l).length : Int) ≤ limit := by
  unfold pySlice
  rw [if_pos h, List.length_take]
  calc ((min limit.toNat l.length : Nat) : Int)
      ≤ (limit.toNat : Int) := by exact_mod_cast Nat.min_le_left _ _
    _ = limit := Int.toNat_of_nonneg h

/-! ## Lemmas about the search coordinator -/

theorem findInSlobAux_nocancel (env env2 : Env) (rid rid2 : Option Int) (limit : Int)
    (h : ∀ t, cancelled env t rid = false) (h2 : ∀ t, cancelled env2 t rid2 = false) :
    ∀ (l : List SlobEntry) (i t t2 : Nat),
      (findInSlobAux env rid limit l i t).1 = (findInSlobAux env2 rid2 limit l i t2).1 := by
  intro l
  induction l with
  | nil => intro i t t2; rfl
  | cons e rest ih =>
    intro i t t2
    simp only [findInSlobAux, h t, h2 t2, Bool.false_eq_true, if_false]
    by_cases hi : (i : Int) = limit
    · rw [if_pos hi, if_pos hi]
    · rw [if_neg hi, if_neg hi]
      have hih := ih (i + 1) (t + 1) (t2 + 1)
      cases hA : findInSlobAux env rid limit rest (i + 1) (t + 1) with
      | mk a ta =>
        cases hB : findInSlobAux env2 rid2 limit rest (i + 1) (t2 + 1) with
        | mk b tb =>
          rw [hA, hB] at hih
          simp only at hih
          subst hih
          cases a <;> rfl

theorem findInSlob_nocancel (env env2 : Env) (rid rid2 : Option Int)
    (query : String) (limit : Int) (entries : List SlobEntry)
    (h : ∀ t, cancelled env t rid = false) (h2 : ∀ t, cancelled env2 t rid2 = false)
    (t t2 : Nat) :
    (findInSlob env rid query limit entries t).1 =
      (findInSlob env2 rid2 query limit entries t2).1 := by
  unfold findInSlob
  have hih := findInSlobAux_nocancel env env2 rid rid2 limit h h2
    (slobFind query entries) 0 t t2
  cases hA : findInSlobAux env rid limit (slobFind query entries) 0 t with
  | mk a ta =>
    cases hB : findInSlobAux env2 rid2 limit (slobFind query entries) 0 t2 with
    | mk b tb =>
      rw [hA, hB] at hih
      simp only at hih
      subst hih
      cases a <;> rfl

theorem searchAux_nocancel (env env2 : Env) (rid rid2 : Option Int)
    (query : String) (limit : Int)
    (h : ∀ t, cancelled env t rid = false) (h2 : ∀ t, cancelled env2 t rid2 = false) :
    ∀ (sources : List DictSource) (t t2 : Nat),
      (searchAux env rid query limit sources t).1 =
        (searchAux env2 rid2 query limit sources t2).1 := by
  intro sources
  induction sources with
  | nil => intro t t2; rfl
  | cons d rest ih =>
    intro t t2
    simp only [searchAux, h t, h2 t2, Bool.false_eq_true, if_false]
    have hfind := findInSlob_nocancel env env2 rid rid2 query limit d.entries h h2
      (t + 1) (t2 + 1)
    have hih := ih (findInSlob env rid query limit d.entries (t + 1)).2
      (findInSlob env2 rid2 query limit d.entries (t2 + 1)).2
    cases hA : searchAux env rid query limit rest
        (findInSlob env rid query limit d.entries (t + 1)).2 with
    | mk a ta =>
      cases hB : searchAux env2 rid2 query limit rest
          (findInSlob env2 rid2 query limit d.entries (t2 + 1)).2 with
      | mk b tb =>
        rw [hA, hB] at hih
        simp only at hih
        subst hih
        cases a <;> simp [hfind]

theorem search_nocancel (env env2 : Env) (rid rid2 : Option Int)
    (sources : List DictSource) (query : String) (limit : Int)
    (h : ∀ t, cancelled env t rid = false) (h2 : ∀ t, cancelled env2 t rid2 = false) :
    (search env rid sources query limit).1 =
      (search env2 rid2 sources query limit).1 := by
  unfold search
  have hih := searchAux_nocancel env env2 rid rid2 query limit h h2 sources 0 0
  cases hA : searchAux env rid query limit sources 0 with
  | mk a ta =>
    cases hB : searchAux env2 rid2 query limit sources 0 with
    | mk b tb =>
      rw [hA, hB] at hih
      simp only at hih
      subst hih
      cases a <;> rfl

theorem cancelled_none (env : Env) (t : Nat) : cancelled env t none = false := rfl

theorem cancelled_some_zero (env : Env) (t : Nat) :
    cancelled env t (some 0) = false := by
  simp [cancelled]

theorem cancelled_matching (r : Int) (t : Nat) :
    cancelled (fun _ => r) t (some r) = false := by
  simp [cancelled]

theorem searchAux_some_checks (env : Env) (r : Int) (query : String) (limit : Int)
    (hr : r ≠ 0) :
    ∀ (sources : List DictSource) (t : Nat) (res : List DictEntry) (u : Nat),
      searchAux env (some r) query limit sources t = (some res, u) →
      ∀ s ∈ sourceCheckTimes env (some r) query limit sources t, env s = r := by
  intro sources
  induction sources with
  | nil =>
    intro t res u _ s hs
    simp [sourceCheckTimes] at hs
  | cons d rest ih =>
    intro t res u h s hs
    by_cases hc : cancelled env t (some r) = true
    · simp only [searchAux, hc, if_true] at h
      exact absurd h (by simp)
    · have hc' : cancelled env t (some r) = false := by
        simpa using hc
      have henv : env t = r := by
        have : (r != 0 && r != env t) = false := hc'
        rcases Bool.and_eq_false_iff.mp this with h0 | h1
        · exact absurd (by simpa using h0) hr
        · have := bne_eq_false_iff_eq.mp h1
          exact this.symm
      simp only [searchAux, hc', Bool.false_eq_true, if_false] at h
      simp only [sourceCheckTimes, hc', Bool.false_eq_true, if_false] at hs
      rcases List.mem_cons.mp hs with rfl | hs'
      · exact henv
      · cases hA : searchAux env (some r) query limit rest
            (findInSlob env (some r) query limit d.entries (t + 1)).2 with
        | mk o u' =>
          cases o with
          | none =>
            rw [hA] at h
            exact absurd h (by simp)
          | some res' =>
            exact ih _ res' u' hA s hs'

/-! ## Claim theorems: search coordinator -/

/-- C1 counterexample: with one loaded source and token 1, every
cooperative check passes (the trace holds 1 at observation points 0 and
1) but a newer token 2 is recorded by the moment of return (observation
point 2); the call nevertheless returns a non-empty list, so the claimed
final guard does not exist. -/
theorem search_c1_counterexample :
    (search c1Env (some 1) [c1Src] "cat" 10).1 ≠ [] ∧
    c1Env (search c1Env (some 1) [c1Src] "cat" 10).2 ≠ 1 := by
  decide

/-- C1 (amended): cancellation takes effect only at the cooperative
checks — whenever a truthy token search returns a non-empty list, the
shared request id equalled the token at every before-source check; the
token is not re-examined at the moment of return. -/
theorem search_c1_amended (env : Env) (r : Int) (query : String) (limit : Int)
    (sources : List DictSource) (hr : r ≠ 0)
    (hne : (search env (some r) sources query limit).1 ≠ []) :
    ∀ s ∈ sourceCheckTimes env (some r) query limit sources 0, env s = r := by
  intro s hs
  unfold search at hne
  cases hA : searchAux env (some r) query limit sources 0 with
  | mk o u =>
    cases o with
    | none => rw [hA] at hne; simp at hne
    | some res =>
      exact searchAux_some_checks env r query limit hr sources 0 res u hA s hs

/-- C1 amended witness: a run whose checks all see the current token 1
returns a non-empty result, and indeed the trace holds 1 at every
before-source check point. -/
theorem search_c1_amended_witness :
    ((1 : Int) ≠ 0 ∧ (search (fun _ => 1) (some 1) [c1Src] "cat" 10).1 ≠ []) ∧
    ∀ s ∈ sourceCheckTimes (fun _ => 1) (some 1) "cat" 10 [c1Src] 0,
      (fun _ => (1 : Int)) s = 1 :=
  ⟨⟨by decide, by decide⟩,
    search_c1_amended (fun _ => 1) 1 "cat" 10 [c1Src] (by decide) (by decide)⟩

/-- C2 counterexample: with a (Python-legal) negative limit the slice
`results[:limit]` keeps all but the last `-limit` elements, so the
returned list can be longer than the limit: at limit `-1` with two hits
one entry is returned and `1 ≤ -1` fails. -/
theorem search_c2_counterexample :
    ¬ (((search (fun _ => 0) none [c2Src] "c" (-1)).1.length : Int) ≤ -1) := by
  decide

/-- C2 (amended): for every non-negative limit, `search` returns at most
`limit` entries. -/
theorem search_c2_amended (env : Env) (rid : Option Int) (sources : List DictSource)
    (query : String) (limit : Int) (h : 0 ≤ limit) :
    (((search env rid sources query limit).1.length : Int)) ≤ limit := by
  unfold search
  cases hA : searchAux env rid query limit sources 0 with
  | mk o t =>
    cases o with
    | none => simpa using h
    | some res =>
      simpa using
        length_pySlice_le limit (sortByKey (fun d => pyCasefold d.term) res) h

/-- C2 amended witness at limit 1 over a source with two matches. -/
theorem search_c2_amended_witness :
    (0 : Int) ≤ 1 ∧ (((search (fun _ => 0) none [c2Src] "c" 1).1.length : Int)) ≤ 1 :=
  ⟨by decide, search_c2_amended (fun _ => 0) none [c2Src] "c" 1 (by decide)⟩

/-- C3: every returned result list is sorted by the case-folded term, and
among entries of equal folded key the returned list is a prefix of the
merged source-enumeration-order list restricted to that key — i.e. the
sort is stable and truncation preserves relative order. -/
theorem search_c3 (env : Env) (rid : Option Int) (sources : List DictSource)
    (query : String) (limit : Int) :
    ((search env rid sources query limit).1.Pairwise
      (fun a b => pyCasefold a.term ≤ pyCasefold b.term)) ∧
    (∀ merged s, (searchAux env rid query limit sources 0).1 = some merged →
      (search env rid sources query limit).1.filter (fun e => pyCasefold e.term == s)
        <+: merged.filter (fun e => pyCasefold e.term == s)) := by
  unfold search
  cases hA : searchAux env rid query limit sources 0 with
  | mk o t =>
    cases o with
    | none =>
      refine ⟨by simp, ?_⟩
      intro merged s hsome
      simp at hsome
    | some res =>
      constructor
      · simp only
        obtain ⟨m, hm⟩ := pySlice_eq_take limit (sortByKey (fun d => pyCasefold d.term) res)
        rw [hm]
        exact (pairwise_sortByKey (fun d => pyCasefold d.term) res).sublist
          (List.take_sublist _ _)
      · intro merged s hsome
        simp only at hsome
        injection hsome with hsome
        subst hsome
        simp only
        obtain ⟨m, hm⟩ := pySlice_eq_take limit (sortByKey (fun d => pyCasefold d.term) res)
        rw [hm]
        have hpre : (sortByKey (fun d => pyCasefold d.term) res).take m <+:
            sortByKey (fun d => pyCasefold d.term) res :=
          ⟨(sortByKey (fun d => pyCasefold d.term) res).drop m,
            List.take_append_drop m _⟩
        have h2 := hpre.filter (fun e => pyCasefold e.term == s)
        rwa [filter_sortByKey] at h2

/-- C3 witness: the §8 two-source scenario; the result is sorted and its
entries with folded key `cat` form a prefix of the merged list's. -/
theorem search_c3_witness :
    ((search (fun _ => 0) none [c3SrcA, c3SrcB] "cat" 10).1.Pairwise
      (fun a b => pyCasefold a.term ≤ pyCasefold b.term)) ∧
    (search (fun _ => 0) none [c3SrcA, c3SrcB] "cat" 10).1.filter
        (fun e => pyCasefold e.term == "cat")
      <+: c3Merged.filter (fun e => pyCasefold e.term == "cat") :=
  ⟨(search_c3 (fun _ => 0) none [c3SrcA, c3SrcB] "cat" 10).1,
    (search_c3 (fun _ => 0) none [c3SrcA, c3SrcB] "cat" 10).2 c3Merged "cat" (by decide)⟩

/-- C10: a falsy request id (`None` or `0`) short-circuits every
cancellation check — the result is independent of the shared request-id
trace and equals a fully uncancelled run; a truthy token equal to the
current id likewise never cancels. -/
theorem search_c10 (env env2 : Env) (sources : List DictSource)
    (query : String) (limit : Int) :
    ((search env none sources query limit).1 =
      (search env2 none sources query limit).1) ∧
    ((search env (some 0) sources query limit).1 =
      (search env2 none sources query limit).1) ∧
    (∀ r : Int, (search (fun _ => r) (some r) sources query limit).1 =
      (search env2 none sources query limit).1) :=
  ⟨search_nocancel env env2 none none sources query limit
      (cancelled_none env) (cancelled_none env2),
    search_nocancel env env2 (some 0) none sources query limit
      (cancelled_some_zero env) (cancelled_none env2),
    fun r => search_nocancel (fun _ => r) env2 (some r) none sources query limit
      (cancelled_matching r) (cancelled_none env2)⟩

/-! ## Claim theorems: entry resolver -/

theorem strLeading_cond : ∀ q k : List Char,
    strLeading q k = true → q = k ∨ q.length < k.length := by
  intro q
  induction q with
  | nil =>
    intro k _
    cases k with
    | nil => exact Or.inl rfl
    | cons b bs => exact Or.inr (by simp)
  | cons a as ih =>
    intro k h
    cases k with
    | nil => simp [strLeading] at h
    | cons b bs =>
      rw [strLeading, Bool.and_eq_true] at h
      obtain ⟨hab, hrest⟩ := h
      have hab' : a = b := eq_of_beq hab
      rcases ih bs hrest with rfl | hlt
      · exact Or.inl (by rw [hab'])
      · exact Or.inr (by simpa using hlt)

theorem mem_slobFind_cond (query : String) (s : List SlobEntry) :
    ∀ e ∈ slobFind query s, query = e.key ∨ query.length < e.key.length := by
  intro e he
  rw [slobFind, List.mem_filter] at he
  rcases strLeading_cond query.data e.key.data he.2 with heq | hlt
  · exact Or.inl (String.ext heq)
  · exact Or.inr hlt

theorem getEntryScan_eq_head (key : String) (l : List SlobEntry)
    (h : ∀ e ∈ l, key = e.key ∨ key.length < e.key.length) :
    getEntryScan key l = l.head? := by
  cases l with
  | nil => rfl
  | cons e rest =>
    rw [getEntryScan.eq_def]
    simp only [if_pos (h e (List.mem_cons_self e rest))]
    rfl

/-- C4 counterexample: query `cat` against a source whose only headword
is `catalog`.  The code returns the `catalog` entry's content (the scan
break condition holds at the very first hit), while the claimed selection
rule — first exact match, else first hit no longer than the term —
selects nothing. -/
theorem getEntry_c4_counterexample :
    getEntry c4Dicts "cat" none "s1" =
      some ⟨"s1", "Dict One", 1, "cat", "text/html", "X"⟩ ∧
    specResolveSelect "cat" (slobFind "cat" [⟨1, "catalog", "text/html", "X"⟩]) = none ∧
    getEntry c4Dicts "cat" none "s1" ≠
      renderSelected "s1" "Dict One" "cat"
        (specResolveSelect "cat" (slobFind "cat" [⟨1, "catalog", "text/html", "X"⟩])) := by
  refine ⟨by decide, by decide, ?_⟩
  decide

/-- C4 (amended): without a `termId` the resolver returns the content of
the first hit of the prefix scan — every prefix hit's key is at least as
long as the term, so the break condition holds immediately; an empty
scan yields not-found. -/
theorem getEntry_c4_amended (dicts : List (String × DictInfoInner))
    (key source : String) :
    getEntry dicts key none source =
      match dicts.find? (fun p => p.1 == source) with
      | none => none
      | some p =>
        renderSelected source p.2.name key (slobFind key p.2.entries).head? := by
  unfold getEntry
  cases hf : dicts.find? (fun p => p.1 == source) with
  | none => rfl
  | some p =>
    cases p with
    | mk sid dinfo =>
      simp only [truthyOptInt, Bool.false_eq_true, if_false]
      rw [getEntryScan_eq_head key _ (mem_slobFind_cond key dinfo.entries)]
      cases (slobFind key dinfo.entries).head? with
      | none => rfl
      | some e => rfl

/-! ## Claim theorems: catalog manager -/

/-- C5 counterexample: `CatalogParser.parse` on a document with
`AssetType` set to `bogus` does not raise — the document is returned
unchanged as native format, and loading it silently yields a catalog
with no descriptors. -/
theorem parseCatalog_c5_counterexample :
    parseCatalog c5Doc = .ok (.native c5Doc) ∧
    loadCatalogFromData "catalog.json" c5Doc =
      .ok { source := "catalog.json", catType := .str "slobdict"
            version := .int 1, dictionaries := [] } :=
  ⟨rfl, rfl⟩

/-- C5 (amended): `_normalize_apple_catalog` raises on any `AssetType`
other than the expected identifier, but `parse` calls it only when the
marker matches exactly; a document with a different `AssetType` marker is
returned unchanged as a native-format document (a non-error result). -/
theorem parseCatalog_c5_amended (data : List (String × PyVal)) (s : String)
    (hget : pyGet data "AssetType" = some (.str s)) (hne : s ≠ appleAssetType) :
    normalizeAppleCatalog data = .error "Invalid Apple catalog type" ∧
    parseCatalog data = .ok (.native data) := by
  have hbeq : (s == appleAssetType) = false := beq_eq_false_iff_ne.mpr hne
  constructor
  · unfold normalizeAppleCatalog
    rw [hget]
    simp [hbeq]
  · unfold parseCatalog
    rw [hget]
    simp [hne]

/-- C5 amended witness at the concrete `bogus` marker document. -/
theorem parseCatalog_c5_amended_witness :
    (pyGet c5Doc "AssetType" = some (.str "bogus") ∧ "bogus" ≠ appleAssetType) ∧
    normalizeAppleCatalog c5Doc = .error "Invalid Apple catalog type" ∧
    parseCatalog c5Doc = .ok (.native c5Doc) :=
  ⟨⟨rfl, by decide⟩, parseCatalog_c5_amended c5Doc "bogus" rfl (by decide)⟩

theorem fromDict_toDict (x : CatDictionary) : fromDict (toDict x) = x := rfl

theorem mapM_nativeEntry (l : List CatDictionary) :
    (l.map (fun x => PyVal.dict (toDict x))).mapM nativeEntryToDictionary =
      .ok l := by
  induction l with
  | nil => rfl
  | cons x rest ih =>
    simp only [List.map_cons, List.mapM_cons, nativeEntryToDictionary,
      fromDict_toDict, ih]
    rfl

theorem createCatalog_native_of_list (src : String) (d : List (String × PyVal))
    (l : List PyVal) (hd : (pyGet d "dictionaries").getD (.list []) = .list l)
    (ds : List CatDictionary) (hm : l.mapM nativeEntryToDictionary = .ok ds) :
    createCatalogFromData src (.native d) =
      .ok { source := src, catType := (pyGet d "type").getD (.str "slobdict")
            version := (pyGet d "version").getD (.int 1), dictionaries := ds } := by
  show (match (pyGet d "dictionaries").getD (.list []) with
    | .list items =>
      match items.mapM nativeEntryToDictionary with
      | .ok dicts =>
        Except.ok (DictionaryCatalog.mk src
          ((pyGet d "type").getD (.str "slobdict"))
          ((pyGet d "version").getD (.int 1)) dicts)
      | .error e => .error e
    | _ => .error "TypeError: dictionaries is not iterable") = _
  rw [hd]
  simp only [hm]

/-- C6: exporting any loaded catalog and loading the exported document
again yields a catalog whose descriptors carry the same ids, urls and
hashes (in fact the identical descriptor list). -/
theorem catalog_c6_roundtrip (srcA srcB : String) (data : List (String × PyVal))
    (c : DictionaryCatalog) (_hload : loadCatalogFromData srcA data = .ok c) :
    ∃ c2, loadCatalogFromData srcB (exportCatalogData c) = .ok c2 ∧
      c2.dictionaries.map (fun x => (x.id, x.url, x.hash)) =
        c.dictionaries.map (fun x => (x.id, x.url, x.hash)) := by
  clear _hload
  refine ⟨{ source := srcB, catType := .str "slobdict", version := c.version
            dictionaries := c.dictionaries }, ?_, rfl⟩
  show createCatalogFromData srcB (.native (exportCatalogData c)) =
    Except.ok { source := srcB, catType := .str "slobdict", version := c.version
                dictionaries := c.dictionaries }
  rw [createCatalog_native_of_list srcB (exportCatalogData c)
    (c.dictionaries.map (fun x => .dict (toDict x))) rfl c.dictionaries
    (mapM_nativeEntry c.dictionaries)]
  rfl

/-- C6 witness: the spec §8 one-descriptor catalog document loads,
exports and reloads to the same descriptor triple set. -/
theorem catalog_c6_roundtrip_witness :
    loadCatalogFromData "catalog.json" c6Data = .ok c6Catalog ∧
    ∃ c2, loadCatalogFromData "export.json" (exportCatalogData c6Catalog) = .ok c2 ∧
      c2.dictionaries.map (fun x => (x.id, x.url, x.hash)) =
        c6Catalog.dictionaries.map (fun x => (x.id, x.url, x.hash)) :=
  ⟨rfl, catalog_c6_roundtrip "catalog.json" "export.json" c6Data c6Catalog rfl⟩

/-! ## Claim theorems: import cleanup -/

/-- C7: a failed conversion of a non-native source, and a failed
post-copy size check of a native copy, both leave no destination file
behind and propagate the error. -/
theorem import_c7_cleanup (isSlob : Bool) (srcSize copiedSize : Int)
    (outcome : ConvertOutcome) :
    (∀ left, isSlob = false → outcome = .failure left →
      importConvertOrCopy isSlob srcSize copiedSize outcome =
        (.error "conversion failed", none)) ∧
    (isSlob = true → srcSize ≠ copiedSize →
      importConvertOrCopy isSlob srcSize copiedSize outcome =
        (.error "Failed to copy SLOB file: copy verification failed", none)) := by
  constructor
  · intro left h1 h2
    subst h1
    subst h2
    unfold importConvertOrCopy convertToSlob
    cases left <;> rfl
  · intro h1 h2
    subst h1
    unfold importConvertOrCopy copySlobFile
    simp [h2]

/-- C7 witness: a conversion failure that left a 5-byte partial file, and
a copy whose destination came out 7 bytes instead of 10. -/
theorem import_c7_cleanup_witness :
    importConvertOrCopy false 0 0 (.failure (some 5)) =
      (.error "conversion failed", none) ∧
    importConvertOrCopy true 10 7 (.success 0) =
      (.error "Failed to copy SLOB file: copy verification failed", none) :=
  ⟨(import_c7_cleanup false 0 0 (.failure (some 5))).1 (some 5) rfl rfl,
    (import_c7_cleanup true 10 7 (.success 0)).2 rfl (by decide)⟩

/-! ## Claim theorems: HTTP bridge -/

/-- C8: on `/find`, a missing or empty `key` answers 400 whatever the
limit parameter says; with a key present, a parsed limit above 10000
answers 413; an unparsable, absent or non-positive limit behaves exactly
as `limit=100`. -/
theorem handleFind_c8 (env : Env) (sources : List DictSource)
    (keyParam limitParam : Option String) :
    (keyParam.getD "" = "" →
      handleFind env sources keyParam limitParam =
        .error 400 "Missing key parameter") ∧
    (∀ l, keyParam.getD "" ≠ "" → pyIntParse (limitParam.getD "100") = some l →
      l > 10000 →
      handleFind env sources keyParam limitParam = .error 413 "Limit too large") ∧
    (keyParam.getD "" ≠ "" → pyIntParse (limitParam.getD "100") = none →
      handleFind env sources keyParam limitParam =
        handleFind env sources keyParam (some "100")) ∧
    (∀ l, keyParam.getD "" ≠ "" → pyIntParse (limitParam.getD "100") = some l →
      l ≤ 0 →
      handleFind env sources keyParam limitParam =
        handleFind env sources keyParam (some "100")) ∧
    (handleFind env sources keyParam none =
      handleFind env sources keyParam (some "100")) := by
  have h100 : pyIntParse "100" = some 100 := rfl
  refine ⟨?_, ?_, ?_, ?_, rfl⟩
  · intro hk
    unfold handleFind
    rw [if_pos hk]
  · intro l hk hp hl
    unfold handleFind
    rw [if_neg hk]
    simp [hp, hl]
  · intro hk hp
    unfold handleFind
    simp [hp, h100, hk]
  · intro l hk hp hl
    unfold handleFind
    have hnot : ¬ l > 10000 := by omega
    simp [hp, h100, hnot, hl, hk]

/-- C8 witness: the spec §8 scenarios — `limit=20000` without a key is
400, with a key it is 413, and `limit=0` behaves as `limit=100`. -/
theorem handleFind_c8_witness :
    handleFind (fun _ => 0) [c3SrcA] none (some "20000") =
      .error 400 "Missing key parameter" ∧
    handleFind (fun _ => 0) [c3SrcA] (some "cat") (some "20000") =
      .error 413 "Limit too large" ∧
    handleFind (fun _ => 0) [c3SrcA] (some "cat") (some "0") =
      handleFind (fun _ => 0) [c3SrcA] (some "cat") (some "100") ∧
    handleFind (fun _ => 0) [c3SrcA] (some "cat") (some "x9") =
      handleFind (fun _ => 0) [c3SrcA] (some "cat") (some "100") :=
  ⟨(handleFind_c8 (fun _ => 0) [c3SrcA] none (some "20000")).1 rfl,
    (handleFind_c8 (fun _ => 0) [c3SrcA] (some "cat") (some "20000")).2.1
      20000 (by decide) (by decide) (by decide),
    (handleFind_c8 (fun _ => 0) [c3SrcA] (some "cat") (some "0")).2.2.2.1
      0 (by decide) (by decide) (by decide),
    (handleFind_c8 (fun _ => 0) [c3SrcA] (some "cat") (some "x9")).2.2.1
      (by decide) (by decide)⟩

/-- C9: the `/find` success path is broken — the handler subscripts
`DictEntry` values, which define no `__getitem__`, so any request whose
search yields at least one hit raises `TypeError` and is answered 500
rather than the claimed 200 item list. -/
theorem handleFind_c9_bug :
    handleFind (fun _ => 0) [c3SrcA] (some "cat") (some "10") =
      .error 500 "internal error" := by
  decide

end SlobDict
